import Mathlib

/-!
Verification of the DroidRun control-plane server (`server.py`, `agent_brain.py`,
`utils.py`): a shallow embedding of its session state machine, result
normalization, history persistence, device-bridge subprocess helpers and
filename sanitization, together with proofs of the specified properties.

Subprocess calls and the delegated agent run are modelled by explicit outcome
values (captured stdout / raised exception / timeout / cancellation), since the
Python code only branches on those observations.
-/

/-! ## Python string primitives

`server.py` uses `str.strip()`, the substring test `needle in hay`,
`str.replace(old, new)`, `str.lower()`, and character predicates
`str.isalnum()`.  We model strings by their character lists. -/

/-- Python `str.strip()` removes leading and trailing whitespace characters. -/
def wsChar (c : Char) : Bool := c.isWhitespace

/-- Character-list core of Python `str.strip()`: drop leading whitespace, then
drop trailing whitespace (via reverse). -/
def pyStripL (l : List Char) : List Char :=
  ((l.dropWhile wsChar).reverse.dropWhile wsChar).reverse

/-- Python `s.strip()` with the default (whitespace) argument. -/
def pyStrip (s : String) : String := ⟨pyStripL s.data⟩

/-- Does `hay` start with `needle`? (Helper for the Python substring test.) -/
def startsWithL : List Char → List Char → Bool
  | _, [] => true
  | [], _ :: _ => false
  | a :: as, b :: bs => a == b && startsWithL as bs

/-- Python `needle in hay` for strings: `needle` occurs contiguously in `hay`. -/
def containsL (hay needle : List Char) : Bool :=
  match hay with
  | [] => needle.isEmpty
  | _ :: t => startsWithL hay needle || containsL t needle

/-- Python `needle in hay` on `String`. -/
def containsStr (hay needle : String) : Bool := containsL hay.data needle.data

/-- Fuelled core of Python `str.replace(old, new)`: replace each non-overlapping
occurrence of `old`, scanning left to right.  The fuel is the length of the
scanned list, which bounds the recursion depth. -/
def replaceFuel (old new : List Char) : Nat → List Char → List Char
  | _, [] => []
  | 0, l => l
  | fuel + 1, c :: t =>
      if startsWithL (c :: t) old ∧ old ≠ [] then
        new ++ replaceFuel old new fuel (List.drop (old.length - 1) t)
      else
        c :: replaceFuel old new fuel t

/-- Python `s.replace(old, new)` (as used in `server.py`, `old` is non-empty). -/
def pyReplace (s old new : String) : String :=
  ⟨replaceFuel old.data new.data s.data.length s.data⟩

/-- Python `s.lower()` (the identifiers involved here are ASCII). -/
def pyLower (s : String) : String := ⟨s.data.map Char.toLower⟩

/-! ## Device-bridge subprocess helpers (`server.py` lines 63-103)

A `subprocess.run` either completes and yields captured stdout, or raises
(timeout, missing binary, ...).  The helpers only inspect stdout and catch all
exceptions, so this is the whole observable interface. -/

/-- Outcome of a `subprocess.run` call: captured stdout, or a raised exception
rendered by `str(e)`. -/
inductive ProcResult where
  | ok (stdout : String)
  | err (excMsg : String)
deriving DecidableEq

/-- Model of `get_current_keyboard` (`server.py` 86-96): on success, return the stripped
stdout unless it is falsy (empty) or has `"null"` in it; on any exception
return `None`. -/
def get_current_keyboard : ProcResult → Option String
  | .ok stdout =>
      let kb := pyStrip stdout
      if kb ≠ "" ∧ containsStr kb "null" = false then some kb else none
  | .err _ => none

/-- Return value of `connect_wireless_adb`: the `{"success": ..., "message": ...}`
dict. -/
structure ConnectResult where
  success : Bool
  message : String
deriving DecidableEq

/-- Model of `connect_wireless_adb` (`server.py` 63-83): success iff the stripped stdout
of `adb connect` has `"connected to"` in it; every exception is caught and
reported as failure. -/
def connect_wireless_adb (ip port : String) (proc : ProcResult) : ConnectResult :=
  match proc with
  | .ok stdout =>
      let output := pyStrip stdout
      if containsStr output "connected to" = true then
        { success := true, message := "Connected to " ++ ip ++ ":" ++ port }
      else
        { success := false, message := "Failed: " ++ output }
  | .err e => { success := false, message := e }

/-! ## Agent result normalization (`server.py` lines 166-185)

The delegated library returns a duck-typed result: the code probes attributes with
`hasattr` and renders each with `str(...)`.  We model the result object by
optional string fields (present attribute, already rendered by `str`), an
optional boolean `success` attribute, and the `str()` form of the whole
object. -/

/-- Duck-typed result object of `agent.run()` as observed by `server.py`:
each `Option` field is `some` exactly when `hasattr` holds, carrying the
`str(...)` rendering of the attribute. -/
structure AgentRunResult where
  structured_output : Option String := none
  output : Option String := none
  result : Option String := none
  reason : Option String := none
  success : Option Bool := none
  str_repr : String := ""
deriving DecidableEq

/-- The `final_output` extraction chain (`server.py` 171-180):
`structured_output` (only when structured output was requested), then
`output`, then `result`, then `reason`, else `str(result)`. -/
def normalize_output (use_structured : Bool) (r : AgentRunResult) : String :=
  match use_structured, r.structured_output, r.output, r.result, r.reason with
  | true, some s, _, _, _ => s
  | _, _, some s, _, _ => s
  | _, _, _, some s, _ => s
  | _, _, _, _, some s => s
  | _, _, _, _, _ => r.str_repr

/-- The success branch of result processing (`server.py` 192-197): if
`"TASK_COMPLETE"` occurs in the text, remove every `"TASK_COMPLETE:"` and
strip the remainder; otherwise keep the text unchanged. -/
def process_success_result (final_output : String) : String :=
  if containsStr final_output "TASK_COMPLETE" = true then
    pyStrip (pyReplace final_output "TASK_COMPLETE:" "")
  else
    final_output

/-! ## Session state and the transition system of the server

`AgentState` (`server.py` 51-58) plus two bookkeeping counters for the event
set of background coroutines of the event loop created by `/execute`: `pending_tasks`
counts coroutines created by `asyncio.create_task` whose bodies have not yet
begun running, `running_tasks` counts bodies that began and have not finished.
These counters are not fields of the Python object; they model the asyncio
tasks themselves, which is what the specified "at most one background task"
invariant quantifies over. -/

/-- The process-wide `AgentState` singleton together with the background-task
bookkeeping of the event loop. -/
structure ServerState where
  status : String
  logs : List String
  result : Option String
  active_task : Bool
  original_keyboard : Option String
  step_count : Nat
  pending_tasks : Nat
  running_tasks : Nat
deriving DecidableEq

/-- State after `AgentState.__init__` (`server.py` 52-58), with no background coroutine in
existence. -/
def initState : ServerState :=
  { status := "idle", logs := [], result := none, active_task := false
    original_keyboard := none, step_count := 0
    pending_tasks := 0, running_tasks := 0 }

/-- Number of background tasks currently alive (created and not yet finished). -/
def active_background_tasks (s : ServerState) : Nat :=
  s.pending_tasks + s.running_tasks

/-- HTTP-visible outcome of `POST /execute`: 409, 400, or task accepted. -/
inductive ExecuteOutcome where
  | conflict
  | validation
  | started
deriving DecidableEq

/-- The `/execute` handler (`server.py` 257-268): 409 when
`state.status == "running" and state._active_task`; 400 when the command is
falsy or its stripped length is below 3; otherwise create a background task
and store its handle. -/
def execute (s : ServerState) (cmd : String) : ExecuteOutcome × ServerState :=
  if s.status = "running" ∧ s.active_task = true then
    (.conflict, s)
  else if cmd = "" ∨ (pyStrip cmd).length < 3 then
    (.validation, s)
  else
    (.started, { s with active_task := true, pending_tasks := s.pending_tasks + 1 })

/-- Prefix of `run_droid_task_logic` (`server.py` 142-161) executed when the
coroutine body first runs: set status to running, reset per-run fields,
capture the current keyboard, and log the command.  (`clear_memory` and
`update_history` touch only files, modelled separately; a failure of
`create_agent` is folded into the exception outcome of the run.) -/
def task_begin (s : ServerState) (cmd : String) (proc : ProcResult) : ServerState :=
  { s with
    status := "running", logs := ["▶️ Executing: " ++ cmd], result := none
    step_count := 0, original_keyboard := get_current_keyboard proc
    pending_tasks := s.pending_tasks - 1, running_tasks := s.running_tasks + 1 }

/-- Outcome of awaiting `agent.run()` under `asyncio.wait_for`
(`server.py` 164 and the `except` arms 212-231). -/
inductive RunOutcome where
  | ok (r : AgentRunResult)
  | timedOut
  | cancelled
  | exc (msg : String)

/-- Hint lines attached to a failure result (`server.py` 204-210). -/
def failure_hints (res : String) : List String :=
  if containsStr res "Manager response invalid" = true then
    ["💡 Hint: The AI response format was unexpected. Try rephrasing your command."]
  else if containsStr (pyLower res) "timeout" = true then
    ["💡 Hint: Task took too long. Try breaking it into smaller steps."]
  else if (containsStr (pyLower res) "rate limit" || containsStr res "429") = true then
    ["💡 Hint: Hit API rate limit. Wait a moment and try again."]
  else []

/-- Hint lines attached to an unexpected exception (`server.py` 228-231). -/
def exception_hints (msg : String) : List String :=
  if containsStr msg "Manager response invalid" = true then
    ["💡 This is a formatting issue. The AI output didn\x27t match expected structure."]
  else if (containsStr msg "429" || containsStr (pyLower msg) "rate_limit") = true then
    ["💡 Hit API rate limit. Please wait 60 seconds before retrying."]
  else []

/-- Suffix of `run_droid_task_logic` (`server.py` 166-239): the `try/except`
result handling followed by the `finally` block.  Returns the updated state
and the keyboard identifier passed to `set_keyboard` in the `finally` block
(`none` when no truthy keyboard was captured). -/
def task_end (s : ServerState) (u : Bool) (outcome : RunOutcome) :
    ServerState × Option String :=
  let s1 :=
    match outcome with
    | .ok r =>
        let final_output := normalize_output u r
        let is_success := r.success.getD true
        if is_success = true then
          let res := process_success_result final_output
          { s with
            status := "success", result := some res
            logs := s.logs ++
              [if containsStr final_output "TASK_COMPLETE" = true then
                "✅ Task completed: " ++ res else "✅ Success: " ++ res] }
        else
          let res := if final_output = "" then "Unknown failure" else final_output
          { s with
            status := "failed", result := some res
            logs := s.logs ++ ("❌ Failed: " ++ res) :: failure_hints res }
    | .timedOut =>
        { s with
          status := "failed", result := some "Task exceeded 5 minute timeout"
          logs := s.logs ++ ["⏱️ Task timed out after 5 minutes"] }
    | .cancelled =>
        { s with
          status := "stopped"
          logs := s.logs ++ ["🛑 Task manually stopped by user"] }
    | .exc msg =>
        { s with
          status := "error", result := some msg
          logs := s.logs ++ ("💥 Error: " ++ msg) :: exception_hints msg }
  let restored :=
    match s.original_keyboard with
    | some k => if k = "" then none else some k
    | none => none
  ({ s1 with active_task := false, running_tasks := s.running_tasks - 1 }, restored)

/-- One complete run of the background coroutine `run_droid_task_logic`
(`server.py` 141-239), from its first instruction to its `finally` block,
given the captured-keyboard subprocess outcome and the awaited run outcome. -/
def run_droid_task_logic (s : ServerState) (cmd : String) (proc : ProcResult)
    (u : Bool) (outcome : RunOutcome) : ServerState × Option String :=
  task_end (task_begin s cmd proc) u outcome

/-- Response of `GET /status` (`server.py` 248-255); `logs[-100:]` keeps the
last 100 log lines. -/
structure StatusView where
  status : String
  logs : List String
  result : Option String
  step_count : Nat

/-- The `/status` handler (`server.py` 248-255). -/
def get_status (s : ServerState) : StatusView :=
  { status := s.status, logs := s.logs.drop (s.logs.length - 100)
    result := s.result, step_count := s.step_count }

/-- Interleaving semantics of the server: HTTP handlers are atomic (they never
await between reading and writing the state), while a background coroutine
created by `/execute` runs later, as two atomic segments — its prefix up to
the `await` of the agent run (`task_begin`) and its completion (`task_end`).
`stop` and `fix_keyboard` do not modify any modelled field. -/
inductive Step : ServerState → ServerState → Prop where
  | execStep (s : ServerState) (cmd : String) : Step s (execute s cmd).2
  | startStep (s : ServerState) (cmd : String) (proc : ProcResult)
      (h : s.pending_tasks ≠ 0) : Step s (task_begin s cmd proc)
  | finishStep (s : ServerState) (u : Bool) (outcome : RunOutcome)
      (h : s.running_tasks ≠ 0) : Step s (task_end s u outcome).1
  | stopStep (s : ServerState) : Step s s
  | fixKeyboardStep (s : ServerState) : Step s s

/-- States reachable from process start. -/
inductive Reachable : ServerState → Prop where
  | base : Reachable initState
  | step {s t : ServerState} : Reachable s → Step s t → Reachable t

/-! ## Command history (`server.py` 115-138)

`update_history` works on the JSON array loaded from `recent_query.json`:
remove the first occurrence of the command if present, insert it at the front, and
truncate to 10 entries. -/

/-- Pure core of `update_history` (`server.py` 115-138). -/
def update_history (history : List String) (command : String) : List String :=
  let h1 := if command ∈ history then history.erase command else history
  let h2 := command :: h1
  if h2.length > 10 then h2.take 10 else h2

/-! ## Macro and app-guide filename sanitization (`server.py` 310, 333) -/

/-- The space character, `Char.ofNat 32`. -/
def spaceChar : Char := Char.ofNat 32

/-- The underscore character, `Char.ofNat 95`. -/
def underscoreChar : Char := Char.ofNat 95

/-- Python filter keeping only alphanumeric characters and spaces: the joined
generator expression at lines 310 and 333 of `server.py`. -/
def pyFilterAlnumSpace (s : String) : String :=
  ⟨s.data.filter (fun c => c.isAlphanum || c == spaceChar)⟩

/-- The filename slug of `create_macro` / `create_guide`
(`server.py` 310 and 333): keep alphanumerics and spaces, strip, replace
spaces with underscores, lowercase. -/
def sanitize_name (name : String) : String :=
  pyLower (pyReplace (pyStrip (pyFilterAlnumSpace name)) " " "_")

/-! ## General lemmas about the embedded operations -/

lemma execute_snd_step_count (s : ServerState) (cmd : String) :
    (execute s cmd).2.step_count = s.step_count := by
  unfold execute
  split
  · rfl
  split
  · rfl
  · rfl

lemma task_end_fst_step_count (s : ServerState) (u : Bool) (o : RunOutcome) :
    (task_end s u o).1.step_count = s.step_count := by
  unfold task_end
  cases o with
  | ok r => dsimp only; split <;> rfl
  | timedOut => rfl
  | cancelled => rfl
  | exc m => rfl

lemma step_count_zero_preserved {s t : ServerState} (hst : Step s t)
    (h0 : s.step_count = 0) : t.step_count = 0 := by
  cases hst with
  | execStep cmd => rw [execute_snd_step_count]; exact h0
  | startStep cmd proc h => rfl
  | finishStep u outcome h => rw [task_end_fst_step_count]; exact h0
  | stopStep => exact h0
  | fixKeyboardStep => exact h0

lemma reachable_step_count_zero (s : ServerState) (h : Reachable s) :
    s.step_count = 0 := by
  induction h with
  | base => rfl
  | step hr hst ih => exact step_count_zero_preserved hst ih

lemma get_current_keyboard_ne_some_empty (proc : ProcResult) :
    get_current_keyboard proc ≠ some "" := by
  cases proc with
  | err m => simp [get_current_keyboard]
  | ok stdout =>
    dsimp only [get_current_keyboard]
    split
    · next h => simp [h.1]
    · simp

lemma take_append_take {α : Type} (A B : List α) (n : Nat) :
    (A ++ B.take n).take n = (A ++ B).take n := by
  rw [List.take_append_eq_append_take, List.take_append_eq_append_take,
    List.take_take, Nat.min_eq_left (Nat.sub_le n A.length)]

lemma update_history_not_mem {h : List String} {c : String} (hc : c ∉ h) :
    update_history h c = (c :: h).take 10 := by
  simp only [update_history, if_neg hc]
  by_cases hl : (c :: h).length > 10
  · rw [if_pos hl]
  · rw [if_neg hl, List.take_of_length_le (by omega)]

lemma foldl_update_history (cs : List String) : ∀ h : List String, cs.Nodup →
    (∀ c ∈ cs, c ∉ h) → h.length ≤ 10 →
    cs.foldl update_history h = (cs.reverse ++ h).take 10 := by
  induction cs with
  | nil =>
    intro h _ _ hlen
    simpa using (List.take_of_length_le hlen).symm
  | cons c cs ih =>
    intro h hnd hdis hlen
    have hcnot : c ∉ h := hdis c (List.mem_cons_self c cs)
    have hdis2 : ∀ x ∈ cs, x ∉ (c :: h).take 10 := by
      intro x hx hmem
      have hsub : x ∈ c :: h := List.take_subset _ _ hmem
      rcases List.mem_cons.mp hsub with rfl | hxh
      · exact (List.nodup_cons.mp hnd).1 hx
      · exact hdis x (List.mem_cons_of_mem _ hx) hxh
    have hlen2 : ((c :: h).take 10).length ≤ 10 := by
      rw [List.length_take]
      exact Nat.min_le_left _ _
    calc (c :: cs).foldl update_history h
        = cs.foldl update_history ((c :: h).take 10) := by
          rw [List.foldl_cons, update_history_not_mem hcnot]
      _ = (cs.reverse ++ (c :: h).take 10).take 10 :=
          ih _ (List.nodup_cons.mp hnd).2 hdis2 hlen2
      _ = (cs.reverse ++ (c :: h)).take 10 := take_append_take _ _ _
      _ = ((c :: cs).reverse ++ h).take 10 := by
          rw [List.reverse_cons, List.append_assoc]
          rfl

lemma replaceFuel_single_char (a b : Char) :
    ∀ (fuel : Nat) (l : List Char), l.length ≤ fuel →
      replaceFuel [a] [b] fuel l = l.map (fun c => if c == a then b else c) := by
  intro fuel
  induction fuel with
  | zero =>
    intro l hl
    rw [List.length_eq_zero.mp (Nat.le_zero.mp hl)]
    rfl
  | succ n ih =>
    intro l hl
    cases l with
    | nil => rfl
    | cons c t =>
      have ht : t.length ≤ n := by simpa using Nat.le_of_succ_le_succ (by simpa using hl)
      simp only [replaceFuel]
      by_cases hca : (c == a) = true
      · rw [if_pos ⟨by simp [startsWithL, hca], by simp⟩]
        simp only [List.length_cons, List.length_nil, Nat.add_sub_cancel, List.drop_zero]
        rw [ih t ht]
        have hc : c = a := beq_iff_eq.mp hca
        simp [hc]
      · rw [if_neg (by simp [startsWithL, hca])]
        rw [ih t ht]
        have hc : ¬ c = a := by simpa using hca
        simp [hc]

lemma dropWhile_mem {p : Char → Bool} {l : List Char} :
    ∀ c ∈ l.dropWhile p, c ∈ l := by
  induction l with
  | nil => simp
  | cons a t ih =>
    intro c hc
    rw [List.dropWhile_cons] at hc
    by_cases hpa : p a = true
    · rw [if_pos hpa] at hc
      exact List.mem_cons_of_mem _ (ih c hc)
    · rw [if_neg hpa] at hc
      exact hc

lemma pyStripL_subset (l : List Char) : ∀ c ∈ pyStripL l, c ∈ l := by
  intro c hc
  unfold pyStripL at hc
  have h1 := List.mem_reverse.mp hc
  have h2 := dropWhile_mem _ h1
  have h3 := List.mem_reverse.mp h2
  exact dropWhile_mem _ h3

lemma startsWithL_iff (n : List Char) : ∀ s : List Char,
    (startsWithL s n = true ↔ ∃ v, s = n ++ v) := by
  induction n with
  | nil =>
    intro s
    simp [startsWithL.eq_def]
  | cons b bs ih =>
    intro s
    cases s with
    | nil => simp [startsWithL]
    | cons a t =>
      simp only [startsWithL, Bool.and_eq_true, beq_iff_eq, ih, List.cons_append]
      constructor
      · rintro ⟨rfl, v, rfl⟩
        exact ⟨v, rfl⟩
      · rintro ⟨v, hv⟩
        injection hv with h1 h2
        exact ⟨h1, v, h2⟩

lemma containsL_iff (n : List Char) : ∀ s : List Char,
    (containsL s n = true ↔ ∃ u v, s = u ++ n ++ v) := by
  intro s
  induction s with
  | nil =>
    simp only [containsL, List.isEmpty_iff]
    constructor
    · intro h
      exact ⟨[], [], by simp [h]⟩
    · rintro ⟨u, v, huv⟩
      rcases List.append_eq_nil.mp huv.symm with ⟨h1, h2⟩
      rcases List.append_eq_nil.mp h1 with ⟨h3, h4⟩
      exact h4
  | cons a t ih =>
    simp only [containsL, Bool.or_eq_true, startsWithL_iff, ih]
    constructor
    · rintro (⟨v, hv⟩ | ⟨u, v, hv⟩)
      · exact ⟨[], v, by simp [hv]⟩
      · exact ⟨a :: u, v, by simp [hv]⟩
    · rintro ⟨u, v, hv⟩
      cases u with
      | nil =>
        left
        exact ⟨v, by simpa using hv⟩
      | cons x u =>
        right
        have hv2 : a :: t = x :: (u ++ n ++ v) := by simpa using hv
        injection hv2 with h1 h2
        exact ⟨u, v, h2⟩

lemma dropWhile_append_cons (p : Char → Bool) (u : List Char) (c : Char) (xs : List Char)
    (hc : p c = false) :
    List.dropWhile p (u ++ c :: xs) = List.dropWhile p u ++ c :: xs := by
  induction u with
  | nil => simp [List.dropWhile_cons, hc]
  | cons a t ih =>
    by_cases hpa : p a = true
    · simp only [List.cons_append, List.dropWhile_cons, hpa, if_true, ih]
    · simp [List.dropWhile_cons, hpa]

lemma pyStripL_decomp (l : List Char) : ∃ u v, l = u ++ pyStripL l ++ v := by
  refine ⟨l.takeWhile wsChar, ((l.dropWhile wsChar).reverse.takeWhile wsChar).reverse, ?_⟩
  unfold pyStripL
  conv_lhs => rw [← List.takeWhile_append_dropWhile wsChar l]
  rw [List.append_assoc]
  congr 1
  conv_lhs => rw [← List.reverse_reverse (l.dropWhile wsChar),
    ← List.takeWhile_append_dropWhile wsChar (l.dropWhile wsChar).reverse]
  rw [List.reverse_append]

lemma containsL_of_strip (s n : List Char) (h : containsL (pyStripL s) n = true) :
    containsL s n = true := by
  rcases (containsL_iff n (pyStripL s)).mp h with ⟨u, v, huv⟩
  rcases pyStripL_decomp s with ⟨w1, w2, hw⟩
  refine (containsL_iff n s).mpr ⟨w1 ++ u, v ++ w2, ?_⟩
  rw [hw, huv]
  simp [List.append_assoc]

lemma strip_of_containsL (s n : List Char) (n0 : Char) (nt : List Char)
    (hn : n = n0 :: nt) (h0 : wsChar n0 = false)
    (nf : List Char) (nl : Char) (hnl : n = nf ++ [nl]) (hl : wsChar nl = false)
    (h : containsL s n = true) : containsL (pyStripL s) n = true := by
  rcases (containsL_iff n s).mp h with ⟨u, v, huv⟩
  have h1 : List.dropWhile wsChar s = List.dropWhile wsChar u ++ n ++ v := by
    rw [huv, hn, List.append_assoc, List.cons_append,
      dropWhile_append_cons wsChar u n0 (nt ++ v) h0]
    simp [List.append_assoc]
  have h2 : (List.dropWhile wsChar s).reverse
      = v.reverse ++ nl :: (nf.reverse ++ (List.dropWhile wsChar u).reverse) := by
    rw [h1, hnl]
    simp [List.reverse_append, List.append_assoc]
  have h3 : List.dropWhile wsChar (List.dropWhile wsChar s).reverse
      = List.dropWhile wsChar v.reverse
          ++ nl :: (nf.reverse ++ (List.dropWhile wsChar u).reverse) := by
    rw [h2, dropWhile_append_cons wsChar v.reverse nl _ hl]
  refine (containsL_iff n (pyStripL s)).mpr
    ⟨List.dropWhile wsChar u, (List.dropWhile wsChar v.reverse).reverse, ?_⟩
  unfold pyStripL
  rw [h3, hnl]
  simp [List.reverse_append, List.append_assoc]

lemma containsStr_strip_connected (s : String) :
    containsStr (pyStrip s) "connected to" = containsStr s "connected to" := by
  apply Bool.eq_iff_iff.mpr
  constructor
  · exact containsL_of_strip s.data ("connected to" : String).data
  · exact strip_of_containsL s.data ("connected to" : String).data
      'c' ("onnected to" : String).data (by decide) (by decide)
      ("connected t" : String).data 'o' (by decide) (by decide)

/-! ## The specified properties -/

/-- C1: evaluation of the code at the failing schedule.  Two valid `/execute`
requests handled before the first created coroutine begins running (its body
has not yet set `status` to `"running"`) both pass the guard
`status == "running" and _active_task`: the second request is answered
`started`, not `conflict`, and afterwards two background tasks are alive in a
reachable state — contradicting the claimed invariant that at most one
background task is ever active. -/
theorem double_execute_starts_second_task :
    (execute (execute initState "open settings").2 "open camera").1 = ExecuteOutcome.started ∧
    active_background_tasks (execute (execute initState "open settings").2 "open camera").2 = 2 ∧
    Reachable (execute (execute initState "open settings").2 "open camera").2 := by
  refine ⟨by decide, by decide, ?_⟩
  exact Reachable.step
    (Reachable.step Reachable.base (Step.execStep initState "open settings"))
    (Step.execStep (execute initState "open settings").2 "open camera")

/-- C2: the normalized output text probes, in priority order,
`structured_output` (only when structured output was requested: when
structured mode is off, a present `structured_output` attribute is skipped),
then `output`, then `result`, then `reason`, finally falling back to the
string form of the whole object; a result exposing only `reason` normalizes
to it, and under structured mode `structured_output` wins over the others. -/
theorem normalize_output_priority (u : Bool) (r : AgentRunResult) (s : String) :
    (r.structured_output = some s → normalize_output true r = s) ∧
    ((u = false ∨ r.structured_output = none) → r.output = some s →
        normalize_output u r = s) ∧
    ((u = false ∨ r.structured_output = none) → r.output = none → r.result = some s →
        normalize_output u r = s) ∧
    ((u = false ∨ r.structured_output = none) → r.output = none → r.result = none →
        r.reason = some s → normalize_output u r = s) ∧
    ((u = false ∨ r.structured_output = none) → r.output = none → r.result = none →
        r.reason = none → normalize_output u r = r.str_repr) := by
  obtain ⟨so, o, re, rs, su, sr⟩ := r
  cases u <;> cases so <;> cases o <;> cases re <;> cases rs <;>
    simp [normalize_output]

/-- Witness for C2: `structured_output` wins under structured mode; a
reason-only result normalizes to the reason; and with structured mode off a
present `structured_output` attribute is ignored in favour of the later
fields. -/
theorem normalize_output_priority_witness :
    normalize_output true
      { structured_output := some "S", output := some "O", result := some "R"
        reason := some "A", success := some true, str_repr := "raw" } = "S" ∧
    normalize_output false
      { reason := some "A", str_repr := "raw" } = "A" ∧
    normalize_output false
      { structured_output := some "S", reason := some "A", str_repr := "raw" } = "A" :=
  ⟨(normalize_output_priority true
      { structured_output := some "S", output := some "O", result := some "R"
        reason := some "A", success := some true, str_repr := "raw" } "S").1 rfl,
   (normalize_output_priority false
      { reason := some "A", str_repr := "raw" } "A").2.2.2.1 (Or.inl rfl) rfl rfl rfl,
   (normalize_output_priority false
      { structured_output := some "S", reason := some "A", str_repr := "raw" }
      "A").2.2.2.1 (Or.inl rfl) rfl rfl rfl⟩

/-- C3, counterexample: for the stdout `"com.nullkbd/ime"` — non-empty after
trimming and not equal to the null sentinel — `get_current_keyboard` returns
an absent value rather than the trimmed output, because the code tests
substring containment of `"null"`, not equality. -/
theorem get_current_keyboard_null_counterexample :
    get_current_keyboard (.ok "com.nullkbd/ime") = none ∧
    pyStrip "com.nullkbd/ime" = "com.nullkbd/ime" ∧
    ("com.nullkbd/ime" : String) ≠ "" ∧
    ("com.nullkbd/ime" : String) ≠ "null" := by
  refine ⟨by decide, by decide, by decide, by decide⟩

/-- C3, amended: `get_current_keyboard` returns the trimmed stdout unless the
trimmed output is empty or contains the null sentinel `"null"` as a substring
(then it returns an absent value), and it returns an absent value, never
raising, on any process error. -/
theorem get_current_keyboard_spec (stdout msg : String) :
    get_current_keyboard (.err msg) = none ∧
    (pyStrip stdout ≠ "" → containsStr (pyStrip stdout) "null" = false →
        get_current_keyboard (.ok stdout) = some (pyStrip stdout)) ∧
    ((pyStrip stdout = "" ∨ containsStr (pyStrip stdout) "null" = true) →
        get_current_keyboard (.ok stdout) = none) := by
  refine ⟨rfl, ?_, ?_⟩
  · intro h1 h2
    simp [get_current_keyboard, h1, h2]
  · rintro (h | h) <;> simp [get_current_keyboard, h]

/-- Witness for C3 (amended): a process error yields `none`, and a padded
keyboard id is returned trimmed. -/
theorem get_current_keyboard_spec_witness :
    get_current_keyboard (.err "timeout") = none ∧
    get_current_keyboard (.ok "  com.x/y  ") = some "com.x/y" :=
  ⟨(get_current_keyboard_spec "  com.x/y  " "timeout").1,
   by
    have h := (get_current_keyboard_spec "  com.x/y  " "timeout").2.1
      (by decide) (by decide)
    simpa using h⟩

/-- C4: inserting a command already present in a (duplicate-free) history
leaves exactly one entry for it, at the front; and folding 11 distinct inserts
into the empty history leaves exactly the 10 most recent, most-recent
first. -/
theorem update_history_dedup_and_bound :
    (∀ (h : List String) (c : String), h.Nodup → c ∈ h →
        (update_history h c).count c = 1 ∧ (update_history h c).head? = some c) ∧
    (∀ cs : List String, cs.length = 11 → cs.Nodup →
        cs.foldl update_history [] = cs.reverse.take 10) := by
  constructor
  · intro h c hnd hmem
    have hc0 : (h.erase c).count c = 0 := by
      have h1 := List.count_erase_self c h
      rw [List.count_eq_one_of_mem hnd hmem] at h1
      simpa using h1
    simp only [update_history, if_pos hmem]
    by_cases hl : (c :: h.erase c).length > 10
    · rw [if_pos hl]
      have h3 : (c :: h.erase c).take 10 = c :: (h.erase c).take 9 := by
        rw [show (10 : Nat) = 9 + 1 from rfl, List.take_succ_cons]
      have h4 : ((h.erase c).take 9).count c = 0 :=
        Nat.le_zero.mp (hc0 ▸ (List.take_sublist 9 _).count_le c)
      rw [h3]
      constructor
      · simp [List.count_cons, h4]
      · rfl
    · rw [if_neg hl]
      constructor
      · simp [List.count_cons, hc0]
      · rfl
  · intro cs hlen hnd
    have h := foldl_update_history cs [] hnd (by simp) (by simp)
    simpa using h

/-- Witness for C4: a concrete duplicate insert and a concrete run of 11
distinct inserts. -/
theorem update_history_dedup_and_bound_witness :
    (update_history ["a", "b"] "b").count "b" = 1 ∧
    (update_history ["a", "b"] "b").head? = some "b" ∧
    ["c1", "c2", "c3", "c4", "c5", "c6", "c7", "c8", "c9", "c10", "c11"].foldl
        update_history []
      = ["c11", "c10", "c9", "c8", "c7", "c6", "c5", "c4", "c3", "c2"] := by
  refine ⟨(update_history_dedup_and_bound.1 ["a", "b"] "b" (by decide) (by decide)).1,
    (update_history_dedup_and_bound.1 ["a", "b"] "b" (by decide) (by decide)).2, ?_⟩
  rw [update_history_dedup_and_bound.2
    ["c1", "c2", "c3", "c4", "c5", "c6", "c7", "c8", "c9", "c10", "c11"] rfl (by decide)]
  decide

/-- C5, counterexample: the successful normalized text `" TASK_COMPLETE done"`
contains neither reading of "the marker stripped": it does not contain
`"TASK_COMPLETE:"`, yet it is not stored in full (it is trimmed); and it does
contain `"TASK_COMPLETE"`, yet removing that token does not give the stored
result either.  The code only removes the colon form while testing the bare
token. -/
theorem completion_marker_counterexample :
    (run_droid_task_logic initState "open settings" (.err "e") false
        (.ok { output := some " TASK_COMPLETE done", success := some true })).1.result
      = some "TASK_COMPLETE done" ∧
    containsStr " TASK_COMPLETE done" "TASK_COMPLETE:" = false ∧
    (" TASK_COMPLETE done" : String) ≠ "TASK_COMPLETE done" ∧
    containsStr " TASK_COMPLETE done" "TASK_COMPLETE" = true ∧
    pyStrip (pyReplace " TASK_COMPLETE done" "TASK_COMPLETE" "") ≠ "TASK_COMPLETE done" := by
  refine ⟨by decide, by decide, by decide, by decide, by decide⟩

/-- C5, amended: on a successful run, if the normalized text contains
`"TASK_COMPLETE"` then every occurrence of `"TASK_COMPLETE:"` is removed and
the remainder is trimmed of surrounding whitespace to form the stored result;
a text without `"TASK_COMPLETE"` is stored in full; in particular
`"TASK_COMPLETE: X"` yields `"X"`. -/
theorem completion_marker_spec (st : ServerState) (cmd : String) (proc : ProcResult)
    (u : Bool) (r : AgentRunResult) (hsucc : r.success.getD true = true) :
    (containsStr (normalize_output u r) "TASK_COMPLETE" = true →
        (run_droid_task_logic st cmd proc u (.ok r)).1.result =
          some (pyStrip (pyReplace (normalize_output u r) "TASK_COMPLETE:" ""))) ∧
    (containsStr (normalize_output u r) "TASK_COMPLETE" = false →
        (run_droid_task_logic st cmd proc u (.ok r)).1.result
          = some (normalize_output u r)) ∧
    pyStrip (pyReplace "TASK_COMPLETE: X" "TASK_COMPLETE:" "") = "X" := by
  refine ⟨?_, ?_, by decide⟩ <;> intro hc <;>
    simp [run_droid_task_logic, task_end, task_begin, hsucc,
      process_success_result, hc]

/-- Witness for C5 (amended): a successful `"TASK_COMPLETE: X"` run stores
`"X"`. -/
theorem completion_marker_spec_witness :
    (run_droid_task_logic initState "cmd one" (.err "e") false
        (.ok { output := some "TASK_COMPLETE: X", success := some true })).1.result
      = some "X" := by
  have h := (completion_marker_spec initState "cmd one" (.err "e") false
    { output := some "TASK_COMPLETE: X", success := some true } rfl).1 (by decide)
  simpa using h

/-- C6: a run whose agent-run awaitable exceeds the deadline ends with status
`"failed"` and the fixed timeout message as the result, and the cleanup step
restores exactly the keyboard identifier captured at start (a no-op when none
was captured). -/
theorem timeout_run_fails_and_restores_keyboard (s : ServerState) (cmd : String)
    (proc : ProcResult) (u : Bool) :
    (run_droid_task_logic s cmd proc u RunOutcome.timedOut).1.status = "failed" ∧
    (run_droid_task_logic s cmd proc u RunOutcome.timedOut).1.result
      = some "Task exceeded 5 minute timeout" ∧
    (run_droid_task_logic s cmd proc u RunOutcome.timedOut).2
      = get_current_keyboard proc := by
  refine ⟨rfl, rfl, ?_⟩
  have h2 : (run_droid_task_logic s cmd proc u RunOutcome.timedOut).2
      = (match get_current_keyboard proc with
         | some k => if k = "" then none else some k
         | none => none : Option String) := rfl
  rw [h2]
  cases hk : get_current_keyboard proc with
  | none => rfl
  | some k =>
    have hne : k ≠ "" := by
      intro he
      subst he
      exact get_current_keyboard_ne_some_empty proc hk
    simp [hne]

/-- C7, counterexample: in the reachable state in which a task is running,
the command `"hm"` is shorter than 3 characters after trimming, yet `/execute`
answers `conflict` (409), not `validation` (400) — the busy check precedes
validation. -/
theorem short_command_while_busy_not_validation :
    (pyStrip "hm").length < 3 ∧
    Reachable (task_begin (execute initState "open settings").2 "open settings" (.err "no adb")) ∧
    (task_begin (execute initState "open settings").2 "open settings" (.err "no adb")).status
      = "running" ∧
    (execute (task_begin (execute initState "open settings").2 "open settings" (.err "no adb"))
      "hm").1 = ExecuteOutcome.conflict ∧
    ExecuteOutcome.conflict ≠ ExecuteOutcome.validation := by
  refine ⟨by decide, ?_, by decide, by decide, by decide⟩
  exact Reachable.step
    (Reachable.step Reachable.base (Step.execStep initState "open settings"))
    (Step.startStep (execute initState "open settings").2 "open settings" (.err "no adb")
      (by decide))

/-- C7, amended: when no running task holds the busy guard, an empty command
or one shorter than 3 characters after trimming is rejected with a Validation
(400) error regardless of its content; and in every state such a request
leaves the state unchanged, so no background task is started. -/
theorem short_command_validation_spec (s : ServerState) (cmd : String)
    (hshort : cmd = "" ∨ (pyStrip cmd).length < 3) :
    (¬ (s.status = "running" ∧ s.active_task = true) →
        (execute s cmd).1 = ExecuteOutcome.validation) ∧
    (execute s cmd).2 = s := by
  unfold execute
  constructor
  · intro hbusy
    rw [if_neg hbusy, if_pos hshort]
  · by_cases hbusy : s.status = "running" ∧ s.active_task = true
    · rw [if_pos hbusy]
    · rw [if_neg hbusy, if_pos hshort]

/-- Witness for C7 (amended) at the initial state with command `"a"`. -/
theorem short_command_validation_spec_witness :
    (execute initState "a").1 = ExecuteOutcome.validation ∧
    (execute initState "a").2 = initState :=
  ⟨(short_command_validation_spec initState "a" (Or.inr (by decide))).1 (by decide),
   (short_command_validation_spec initState "a" (Or.inr (by decide))).2⟩

/-- C8: `connect_wireless_adb` is a total function of the subprocess outcome
(it never raises and always returns a success flag and a message), and its
success flag is true if and only if the subprocess completed and the
substring `"connected to"` occurs in its standard output; a process error
never yields success. -/
theorem connect_wireless_success_iff (ip port : String) (proc : ProcResult) :
    (connect_wireless_adb ip port proc).success = true ↔
      ∃ stdout, proc = ProcResult.ok stdout ∧ containsStr stdout "connected to" = true := by
  cases proc with
  | err e => simp [connect_wireless_adb]
  | ok stdout =>
    have hb : containsStr (pyStrip stdout) "connected to"
        = containsStr stdout "connected to" := containsStr_strip_connected stdout
    unfold connect_wireless_adb
    dsimp only
    rw [hb]
    by_cases hc : containsStr stdout "connected to" = true
    · rw [if_pos hc]
      exact ⟨fun _ => ⟨stdout, rfl, hc⟩, fun _ => rfl⟩
    · rw [if_neg hc]
      constructor
      · intro hfalse
        simp at hfalse
      · rintro ⟨s2, hs2, hcs2⟩
        injection hs2 with h4
        exact absurd (h4 ▸ hcs2) hc

/-- Witness for C8: a matching stdout succeeds; a raised process error does
not. -/
theorem connect_wireless_success_iff_witness :
    (connect_wireless_adb "192.168.0.2" "5555"
      (.ok "already connected to 192.168.0.2:5555")).success = true ∧
    (connect_wireless_adb "192.168.0.2" "5555" (.err "timed out")).success = false := by
  constructor
  · exact (connect_wireless_success_iff "192.168.0.2" "5555"
      (.ok "already connected to 192.168.0.2:5555")).mpr
      ⟨"already connected to 192.168.0.2:5555", rfl, by decide⟩
  · have h := (connect_wireless_success_iff "192.168.0.2" "5555" (.err "timed out"))
    by_cases hs : (connect_wireless_adb "192.168.0.2" "5555" (.err "timed out")).success = true
    · rcases h.mp hs with ⟨s2, hs2, _⟩
      exact absurd hs2 (by simp)
    · simpa using hs

/-- C9: the filename slug keeps only alphanumerics and spaces, trims, replaces
spaces with underscores and lowercases — `"My Macro! #1"` becomes
`"my_macro_1"` — and (sanitization being a total function) every character of
any sanitized name is an underscore or the lowercase form of an alphanumeric
character. -/
theorem sanitize_name_spec (name : String) (c : Char)
    (h : c ∈ (sanitize_name name).data) :
    sanitize_name "My Macro! #1" = "my_macro_1" ∧
    (c = underscoreChar ∨ ∃ c0 : Char, c0.isAlphanum = true ∧ c = Char.toLower c0) := by
  refine ⟨by decide, ?_⟩
  have hsp : (" " : String).data = [spaceChar] := by decide
  have hus : ("_" : String).data = [underscoreChar] := by decide
  have hdata : (sanitize_name name).data =
      ((pyStrip (pyFilterAlnumSpace name)).data.map
        (fun x => if x == spaceChar then underscoreChar else x)).map Char.toLower := by
    show ((pyReplace (pyStrip (pyFilterAlnumSpace name)) " " "_").data).map Char.toLower = _
    congr 1
    show replaceFuel (" " : String).data ("_" : String).data _ _ = _
    rw [hsp, hus, replaceFuel_single_char spaceChar underscoreChar _ _ (Nat.le_refl _)]
  rw [hdata] at h
  rcases List.mem_map.mp h with ⟨x, hx, rfl⟩
  rcases List.mem_map.mp hx with ⟨y, hy, rfl⟩
  have hy2 : y ∈ name.data.filter (fun c0 => c0.isAlphanum || c0 == spaceChar) :=
    pyStripL_subset _ _ hy
  have hy3 : y.isAlphanum = true ∨ (y == spaceChar) = true := by
    have h5 := List.of_mem_filter hy2
    simpa using h5
  by_cases hspc : (y == spaceChar) = true
  · left
    rw [if_pos hspc]
    decide
  · right
    have halnum : y.isAlphanum = true := by
      rcases hy3 with h1 | h1
      · exact h1
      · exact absurd h1 hspc
    exact ⟨y, halnum, by rw [if_neg hspc]⟩

/-- Witness for C9 at the name `"a b"` and its underscore character. -/
theorem sanitize_name_spec_witness :
    sanitize_name "My Macro! #1" = "my_macro_1" ∧
    (underscoreChar = underscoreChar ∨
      ∃ c0 : Char, c0.isAlphanum = true ∧ underscoreChar = Char.toLower c0) :=
  sanitize_name_spec "a b" underscoreChar (by decide)

/-- C10: `step_count` is 0 in the initial state, is reset to 0 by the prefix
of every run, is never incremented by any transition, and hence `GET /status`
reports `step_count = 0` in every reachable state. -/
theorem step_count_always_zero (s : ServerState) (h : Reachable s) :
    (get_status s).step_count = 0 ∧ initState.step_count = 0 ∧
      ∀ (t : ServerState) (cmd : String) (proc : ProcResult),
        (task_begin t cmd proc).step_count = 0 := by
  refine ⟨?_, rfl, fun t cmd proc => rfl⟩
  have h0 := reachable_step_count_zero s h
  simpa [get_status] using h0

/-- Witness for C10 at the initial state. -/
theorem step_count_always_zero_witness :
    (get_status initState).step_count = 0 ∧ initState.step_count = 0 ∧
      ∀ (t : ServerState) (cmd : String) (proc : ProcResult),
        (task_begin t cmd proc).step_count = 0 :=
  step_count_always_zero initState Reachable.base
